import Mathlib

/-!
Verification of the component-composition runtime (Lorn.ADSP.Rust).

Shallow embedding of:
* `DependencyGraph` from `src/crates/05-infrastructure/common/src/discovery.rs`
  (cycle detection and topological sort),
* `AdSystemConfigManager` from
  `src/crates/05-infrastructure/config-impl/src/manager.rs`
  (provider merge, snapshots, rollback, hot-reload event handling),
* `DiContainerImpl` from `src/crates/05-infrastructure/di-impl/src/lib.rs`
  (registration and resolution).

Rust `HashMap`/`HashSet` values are embedded as association lists / lists with
the exact insert-replaces / insert-if-absent behaviour of the source; where the
source iterates a `HashMap` (whose iteration order is unspecified), the
embedding takes the iteration order as an explicit parameter.
-/

deriving instance DecidableEq for Except

namespace Spec2Proof

/-! ## Dependency graph (`common/src/discovery.rs`) -/

/-- `TypeInfo` identifies a component type; the Rust struct carries a `TypeId`
and a name, embedded here as a single numeric identity. -/
structure TypeInfo where
  id : Nat
deriving DecidableEq, Repr

/-- `DependencyRelationship` from `discovery.rs`. -/
inductive DependencyRelationship
  | Constructor
  | Property
  | Method
  | ServiceLocator
deriving DecidableEq, Repr

/-- `DependencyInfo`: one edge of the graph (dependent depends on dependency). -/
structure DependencyInfo where
  dependent : TypeInfo
  dependency : TypeInfo
  relationship : DependencyRelationship
  opt : Bool
deriving DecidableEq, Repr

/-- Insert into a set represented as a duplicate-free list (`HashSet::insert`). -/
def listInsert (s : List TypeInfo) (x : TypeInfo) : List TypeInfo :=
  if x ∈ s then s else s ++ [x]

/-- Remove from a set represented as a list (`HashSet::remove`). -/
def listRemove (s : List TypeInfo) (x : TypeInfo) : List TypeInfo :=
  s.filter (fun y => y ≠ x)

/-- Lookup in an association list (`HashMap::get`). -/
def adjLookup (m : List (TypeInfo × List TypeInfo)) (k : TypeInfo) :
    Option (List TypeInfo) :=
  match m with
  | [] => none
  | (k', v) :: rest => if k' = k then some v else adjLookup rest k

/-- `adjacency_list.entry(k).or_insert_with(Vec::new).push(v)`. -/
def adjPush (m : List (TypeInfo × List TypeInfo)) (k v : TypeInfo) :
    List (TypeInfo × List TypeInfo) :=
  match m with
  | [] => [(k, [v])]
  | (k', vs) :: rest =>
      if k' = k then (k', vs ++ [v]) :: rest else (k', vs) :: adjPush rest k v

/-- Key set of the `nodes` map: `HashMap::insert` adds the key when absent. -/
def nodesInsert (ns : List TypeInfo) (k : TypeInfo) : List TypeInfo :=
  if k ∈ ns then ns else ns ++ [k]

/-- `DependencyGraph` from `discovery.rs`; `nodes` keeps the key set of the
node map (the metadata values play no role in the verified operations). -/
structure DependencyGraph where
  nodes : List TypeInfo
  edges : List DependencyInfo
  adjacency_list : List (TypeInfo × List TypeInfo)
  reverse_adjacency_list : List (TypeInfo × List TypeInfo)
deriving DecidableEq, Repr

/-- `DependencyGraph::new`. -/
def DependencyGraph.empty : DependencyGraph := ⟨[], [], [], []⟩

/-- `DependencyGraph::add_dependency`. -/
def DependencyGraph.add_dependency (g : DependencyGraph)
    (dependent dependency : TypeInfo) (relationship : DependencyRelationship)
    (opt : Bool) : DependencyGraph :=
  { g with
    edges := g.edges ++ [⟨dependent, dependency, relationship, opt⟩]
    adjacency_list := adjPush g.adjacency_list dependent dependency
    reverse_adjacency_list := adjPush g.reverse_adjacency_list dependency dependent }

/-- `DependencyGraph::add_component`: inserts the node, then one
`Constructor`, non-optional edge per declared dependency. -/
def DependencyGraph.add_component (g : DependencyGraph) (ti : TypeInfo)
    (deps : List TypeInfo) : DependencyGraph :=
  let g := { g with nodes := nodesInsert g.nodes ti }
  deps.foldl (fun g dep => g.add_dependency ti dep .Constructor false) g

/-- State threaded through `dfs_detect_cycle`. -/
structure DfsState where
  visited : List TypeInfo
  rec_stack : List TypeInfo
  path : List TypeInfo
  cycles : List (List TypeInfo)
deriving DecidableEq, Repr

/-- `DependencyGraph::dfs_detect_cycle`.  The Rust recursion terminates because
`visited` grows; the embedding uses a fuel argument, supplied large enough by
`detect_circular_dependencies`. -/
def DependencyGraph.dfs_detect_cycle (g : DependencyGraph) :
    Nat → TypeInfo → DfsState → DfsState
  | 0, _, st => st
  | fuel + 1, node, st₀ =>
    let st₁ := { st₀ with
      visited := listInsert st₀.visited node
      rec_stack := listInsert st₀.rec_stack node
      path := st₀.path ++ [node] }
    let deps := (adjLookup g.adjacency_list node).getD []
    let st₂ := deps.foldl (fun st dep =>
      if dep ∈ st.rec_stack then
        match st.path.findIdx? (fun n => n = dep) with
        | some cycle_start => { st with cycles := st.cycles ++ [st.path.drop cycle_start] }
        | none => st
      else if dep ∈ st.visited then st
      else g.dfs_detect_cycle fuel dep st) st₁
    { st₂ with path := st₂.path.dropLast, rec_stack := listRemove st₂.rec_stack node }

/-- `DependencyGraph::detect_circular_dependencies`.  `key_order` is the
iteration order of `self.nodes.keys()` (a `HashMap`, so unspecified); a fresh
`path` vector is created for every outer iteration, exactly as in the source. -/
def DependencyGraph.detect_circular_dependencies (g : DependencyGraph)
    (key_order : List TypeInfo) : Except (List (List TypeInfo)) Unit :=
  let fuel := g.nodes.length + g.edges.length + 1
  let st := key_order.foldl (fun st node =>
    if node ∈ st.visited then st
    else g.dfs_detect_cycle fuel node { st with path := [] })
    ⟨[], [], [], []⟩
  if st.cycles.isEmpty then .ok () else .error st.cycles

/-- `ComponentError` (`common/src/errors.rs`); only the variant produced by the
graph operations is needed here. -/
inductive ComponentError
  | CircularDependency (cycle : String)
deriving DecidableEq, Repr

/-- In-degree map operations (`HashMap<TypeInfo, i32>`): plain insert. -/
def degInsert (m : List (TypeInfo × Int)) (k : TypeInfo) (v : Int) :
    List (TypeInfo × Int) :=
  match m with
  | [] => [(k, v)]
  | (k', v') :: rest =>
      if k' = k then (k', v) :: rest else (k', v') :: degInsert rest k v

/-- `in_degree.get(k)`. -/
def degLookup (m : List (TypeInfo × Int)) (k : TypeInfo) : Option Int :=
  match m with
  | [] => none
  | (k', v) :: rest => if k' = k then some v else degLookup rest k

/-- `*in_degree.entry(k).or_insert(0) += 1`. -/
def degEntryAdd1 (m : List (TypeInfo × Int)) (k : TypeInfo) :
    List (TypeInfo × Int) :=
  match m with
  | [] => [(k, 1)]
  | (k', v) :: rest =>
      if k' = k then (k', v + 1) :: rest else (k', v) :: degEntryAdd1 rest k

/-- The `while let Some(node) = queue.pop_front()` loop of
`topological_sort`, with the queue, in-degree map and result threaded; fuel
bounds the number of dequeues. -/
def DependencyGraph.kahn_loop (g : DependencyGraph) :
    Nat → List TypeInfo → List (TypeInfo × Int) → List TypeInfo → List TypeInfo
  | 0, _, _, result => result
  | fuel + 1, queue, in_degree, result =>
    match queue with
    | [] => result
    | node :: queue_rest =>
      let result := result ++ [node]
      let deps := (adjLookup g.adjacency_list node).getD []
      let step := deps.foldl
        (fun (acc : List (TypeInfo × Int) × List TypeInfo) dep =>
          match degLookup acc.1 dep with
          | some degree =>
            let degree := degree - 1
            let m := degInsert acc.1 dep degree
            if degree = 0 then (m, acc.2 ++ [dep]) else (m, acc.2)
          | none => acc)
        (in_degree, queue_rest)
      g.kahn_loop fuel step.2 step.1 result

/-- `DependencyGraph::topological_sort`.  `seed_order` is the iteration order
of the `for (node, degree) in &in_degree` seeding loop (a `HashMap`, so
unspecified).  Note that the source increments `in_degree[edge.dependent]` per
required edge and, on dequeue, decrements along `adjacency_list[node]` — the
node's own dependencies. -/
def DependencyGraph.topological_sort (g : DependencyGraph)
    (seed_order : List TypeInfo) : Except ComponentError (List TypeInfo) :=
  let in_degree : List (TypeInfo × Int) :=
    g.nodes.foldl (fun m n => degInsert m n 0) []
  let in_degree := g.edges.foldl
    (fun m e => if e.opt then m else degEntryAdd1 m e.dependent) in_degree
  let queue := seed_order.filter (fun n => degLookup in_degree n = some 0)
  let fuel := g.nodes.length + g.edges.length + seed_order.length + 1
  let result := g.kahn_loop fuel queue in_degree []
  if result.length ≠ g.nodes.length then
    .error (.CircularDependency "检测到循环依赖")
  else
    .ok result

/-! Concrete graphs used by the claims. -/

def tA : TypeInfo := ⟨0⟩
def tB : TypeInfo := ⟨1⟩
def tC : TypeInfo := ⟨2⟩
def tD : TypeInfo := ⟨3⟩

/-- A depends on B, B depends on C, C has no dependencies. -/
def chainGraph : DependencyGraph :=
  ((DependencyGraph.empty.add_component tA [tB]).add_component tB [tC]).add_component tC []

/-- A → B → C → A. -/
def cycleGraph : DependencyGraph :=
  ((DependencyGraph.empty.add_component tA [tB]).add_component tB [tC]).add_component tC [tA]

/-- Two distinct cycles sharing the edge D → A:
A → B → D → A and A → C → D → A. -/
def diamondGraph : DependencyGraph :=
  (((DependencyGraph.empty.add_component tA [tB, tC]).add_component tB [tD]).add_component
    tC [tD]).add_component tD [tA]

/-- `c` is a cycle of `g`: nonempty, consecutive elements connected by edges of
the adjacency list, and an edge from the last element back to the first. -/
def isGraphCycle (g : DependencyGraph) (c : List TypeInfo) : Bool :=
  match c with
  | [] => false
  | x :: _ =>
    (c.zip (c.drop 1 ++ [x])).all
      (fun p => p.2 ∈ (adjLookup g.adjacency_list p.1).getD [])

/-- All rotations of a list. -/
def rotations (c : List TypeInfo) : List (List TypeInfo) :=
  (List.range c.length).map (fun i => c.drop i ++ c.take i)

/-- Every way of inserting `x` into a list (auxiliary for `permsOf`). -/
def insertEverywhere (x : TypeInfo) : List TypeInfo → List (List TypeInfo)
  | [] => [[x]]
  | y :: ys => (x :: y :: ys) :: (insertEverywhere x ys).map (fun zs => y :: zs)

/-- All permutations of a list, by structural recursion (so that proofs can
evaluate it); used to quantify over the unspecified `HashMap` iteration
orders. -/
def permsOf : List TypeInfo → List (List TypeInfo)
  | [] => [[]]
  | x :: xs => (permsOf xs).flatMap (insertEverywhere x)

/-- `true` iff `detect_circular_dependencies` under iteration order `ord`
reports some rotation of `target` among its cycles. -/
def reportsRotationOf (g : DependencyGraph) (ord target : List TypeInfo) : Bool :=
  match g.detect_circular_dependencies ord with
  | .error cys => cys.any (fun c => c ∈ rotations target)
  | .ok _ => false

/-- `true` iff `detect_circular_dependencies` under iteration order `ord`
returns a non-empty error list all of whose entries are genuine cycles. -/
def allReportedGenuine (g : DependencyGraph) (ord : List TypeInfo) : Bool :=
  match g.detect_circular_dependencies ord with
  | .error cys => !cys.isEmpty && cys.all (fun c => isGraphCycle g c)
  | .ok _ => false

/-- Modelled from the spec: §4.2's Kahn's algorithm dequeue step — the missing
part relative to the source is that, on dequeueing a node, the in-degrees of
the node's *dependents* (reverse adjacency) are decremented, so that nodes
become ready once all their dependencies have been emitted. -/
def DependencyGraph.kahn_loop_specmodel (g : DependencyGraph) :
    Nat → List TypeInfo → List (TypeInfo × Int) → List TypeInfo → List TypeInfo
  | 0, _, _, result => result
  | fuel + 1, queue, in_degree, result =>
    match queue with
    | [] => result
    | node :: queue_rest =>
      let result := result ++ [node]
      let dependents := (adjLookup g.reverse_adjacency_list node).getD []
      let step := dependents.foldl
        (fun (acc : List (TypeInfo × Int) × List TypeInfo) dep =>
          match degLookup acc.1 dep with
          | some degree =>
            let degree := degree - 1
            let m := degInsert acc.1 dep degree
            if degree = 0 then (m, acc.2 ++ [dep]) else (m, acc.2)
          | none => acc)
        (in_degree, queue_rest)
      g.kahn_loop_specmodel fuel step.2 step.1 result

/-- Modelled from the spec: `topologicalSort` as §4.2 describes it (in-degree =
number of required dependencies, zero-in-degree nodes seeded, dependents
decremented on dequeue). -/
def DependencyGraph.topological_sort_specmodel (g : DependencyGraph)
    (seed_order : List TypeInfo) : Except ComponentError (List TypeInfo) :=
  let in_degree : List (TypeInfo × Int) :=
    g.nodes.foldl (fun m n => degInsert m n 0) []
  let in_degree := g.edges.foldl
    (fun m e => if e.opt then m else degEntryAdd1 m e.dependent) in_degree
  let queue := seed_order.filter (fun n => degLookup in_degree n = some 0)
  let fuel := g.nodes.length + g.edges.length + seed_order.length + 1
  let result := g.kahn_loop_specmodel fuel queue in_degree []
  if result.length ≠ g.nodes.length then
    .error (.CircularDependency "检测到循环依赖")
  else
    .ok result

/-! ## Configuration values (`serde_json::Value`), sections and errors -/

/-- Configuration values; `serde_json` numbers are embedded as integers (all
values in the verified claims are integral, on which `as_f64` is exact). -/
inductive Value
  | null
  | bool (b : Bool)
  | num (n : Int)
  | str (s : String)
deriving DecidableEq, Repr

/-- `Value::as_f64`, restricted to the embedded numbers. -/
def Value.as_num : Value → Option Int
  | .num n => some n
  | _ => none

/-- Key lookup in a `HashMap<String, Value>` embedded as an association list
with distinct keys. -/
def kvLookup (m : List (String × Value)) (k : String) : Option Value :=
  match m with
  | [] => none
  | (k', v) :: rest => if k' = k then some v else kvLookup rest k

/-- `ConfigSection` (`common/src/configuration.rs`): a map of keys to values. -/
structure ConfigSection where
  data : List (String × Value)
deriving DecidableEq, Repr

/-- `ConfigError` (`common/src/errors.rs`); the variants the verified
operations produce. -/
inductive ConfigError
  | KeyNotFound (key : String)
  | ReloadError (message : String)
  | ValidationFailed (errors : List String)
  | NoRollbackAvailable
  | VersionNotFound (version : Nat)
deriving DecidableEq, Repr

/-! ## Configuration providers and `get_section`
(`config-impl/src/manager.rs`, `ConfigProvider` consumed per §6) -/

/-- A configuration provider, modelled at its interface boundary (§6): a name,
a priority and the section trees it serves.  `get_section` on a missing name
is the provider's `KeyNotFound`. -/
structure ProviderModel where
  pname : String
  priority : Int
  sections : List (String × ConfigSection)
deriving DecidableEq, Repr

/-- Lookup among a provider's sections. -/
def secLookup (m : List (String × ConfigSection)) (k : String) :
    Option ConfigSection :=
  match m with
  | [] => none
  | (k', v) :: rest => if k' = k then some v else secLookup rest k

/-- `provider.get_section(name)`. -/
def ProviderModel.get_section (p : ProviderModel) (section_name : String) :
    Except ConfigError ConfigSection :=
  match secLookup p.sections section_name with
  | some sec => .ok sec
  | none => .error (.KeyNotFound section_name)

/-- The value provider `p` serves for key `k` inside section `section_name`. -/
def ProviderModel.sectionValue (p : ProviderModel) (section_name k : String) :
    Option Value :=
  match secLookup p.sections section_name with
  | some sec => kvLookup sec.data k
  | none => none

/-- Provider-list slice of `AdSystemConfigManager`: the `providers` vector
(kept sorted by descending priority) and the value cache. -/
structure ManagerProviders where
  providers : List ProviderModel
  config_cache : List (String × Value)
deriving DecidableEq, Repr

def ManagerProviders.empty : ManagerProviders := ⟨[], []⟩

/-- Stable insertion of a provider behind all providers of priority ≥ its own:
one step of a stable descending sort. -/
def insertByPriority (p : ProviderModel) : List ProviderModel → List ProviderModel
  | [] => [p]
  | q :: rest =>
      if p.priority ≤ q.priority then q :: insertByPriority p rest
      else p :: q :: rest

/-- `providers.sort_by(|a, b| b.priority().cmp(&a.priority()))`: Rust's
`sort_by` is stable, so it equals this stable descending insertion sort. -/
def sortByPriorityDesc (ps : List ProviderModel) : List ProviderModel :=
  ps.foldl (fun acc p => insertByPriority p acc) []

/-- `AdSystemConfigManager::register_provider`: push, re-sort descending by
priority, clear the value cache. -/
def ManagerProviders.register_provider (m : ManagerProviders)
    (p : ProviderModel) : ManagerProviders :=
  { providers := sortByPriorityDesc (m.providers ++ [p]), config_cache := [] }

/-- The inner merge loop of `get_section`: each key of the incoming section is
inserted only if the combined section does not already contain it. -/
def mergeSectionData (combined data : List (String × Value)) :
    List (String × Value) :=
  data.foldl
    (fun acc kv => if (kvLookup acc kv.1).isSome then acc else acc ++ [kv])
    combined

/-- The provider loop of `get_section`: walk providers in order, additively
merging each provider's section into the combined data; providers failing with
any error are skipped, as in the source. -/
def collectSections (ps : List ProviderModel) (acc : List (String × Value))
    (section_name : String) : List (String × Value) :=
  match ps with
  | [] => acc
  | p :: rest =>
    match p.get_section section_name with
    | .ok sec => collectSections rest (mergeSectionData acc sec.data) section_name
    | .error _ => collectSections rest acc section_name

/-- `AdSystemConfigManager::get_section`: walk providers in (descending
priority) order, additively merging each provider's section, earlier providers
winning per key; `KeyNotFound` only when the combined section is empty. -/
def ManagerProviders.get_section (m : ManagerProviders) (section_name : String) :
    Except ConfigError ConfigSection :=
  let combined := collectSections m.providers [] section_name
  if combined.isEmpty then .error (.KeyNotFound section_name)
  else .ok ⟨combined⟩

/-- The value `get_section` ends up holding for key `k`: the first provider in
list order serving `k` inside the section. -/
def firstDef (ps : List ProviderModel) (section_name k : String) : Option Value :=
  match ps with
  | [] => none
  | p :: rest =>
    match p.sectionValue section_name k with
    | some v => some v
    | none => firstDef rest section_name k

/-- `optOr a b` is `a` unless `a` is `none`. -/
def optOr (a b : Option Value) : Option Value :=
  match a with
  | some v => some v
  | none => b

/-! ## Snapshots, rollback and the hot-reload event handler
(`config-impl/src/manager.rs`) -/

/-- `ConfigSnapshot`: the merged map, a version number and a description (the
wall-clock timestamp field plays no role in any verified operation and is
omitted). -/
structure ConfigSnapshot where
  config_data : List (String × Value)
  version : Nat
  description : String
deriving DecidableEq, Repr

/-- `ConfigChangeEventType` (`config-abstractions/src/events.rs`). -/
inductive ConfigChangeEventType
  | Created
  | Updated
  | Deleted
  | Reloaded
  | ValidationFailed
  | SourceConnectionFailed
  | SourceConnectionRestored
deriving DecidableEq, Repr

/-- `ConfigChangeEvent` (`config-abstractions/src/events.rs`); the timestamp
and free-form metadata are omitted (unused by the verified handler). -/
structure ConfigChangeEvent where
  event_type : ConfigChangeEventType
  path : String
  old_value : Option Value
  new_value : Option Value
  source : String
deriving DecidableEq, Repr

/-- `ConfigChangeEvent::created`. -/
def ConfigChangeEvent.created (path : String) (value : Value) (source : String) :
    ConfigChangeEvent :=
  ⟨.Created, path, none, some value, source⟩

/-- `ValidationResult` (`config-abstractions/src/manager.rs`); the fields the
verified code reads and writes. -/
structure ValidationResult where
  is_valid : Bool
  errors : List String
deriving DecidableEq, Repr

/-- `ValidationResult::success`. -/
def ValidationResult.success : ValidationResult := ⟨true, []⟩

/-- The state of `AdSystemConfigManager` acted on by snapshots, rollback and
the hot-reload event handler: the value cache, the bounded snapshot history,
its cap (`max_history_size`, default 10), and the stream of events forwarded
to the registered event handler (`send_event_to_handler`). -/
structure MgrState where
  config_cache : List (String × Value)
  config_history : List ConfigSnapshot
  max_history_size : Nat
  events_sent : List ConfigChangeEvent
deriving DecidableEq, Repr

/-- A manager fresh from `AdSystemConfigManager::new` with cap `m`. -/
def freshMgr (m : Nat) : MgrState := ⟨[], [], m, []⟩

/-- `AdSystemConfigManager::get_all_config_data`: clones the value cache. -/
def MgrState.get_all_config_data (s : MgrState) : List (String × Value) :=
  s.config_cache

/-- `AdSystemConfigManager::get_next_snapshot_version`: history length + 1. -/
def MgrState.get_next_snapshot_version (s : MgrState) : Nat :=
  s.config_history.length + 1

/-- `AdSystemConfigManager::create_config_snapshot`: snapshot the cache, push,
evict the oldest entry when the cap is exceeded. -/
def MgrState.create_config_snapshot (s : MgrState) (description : String) :
    MgrState :=
  let snapshot : ConfigSnapshot :=
    ⟨s.get_all_config_data, s.get_next_snapshot_version, description⟩
  let history := s.config_history ++ [snapshot]
  let history :=
    if history.length > s.max_history_size then history.drop 1 else history
  { s with config_history := history }

/-- `n` successive snapshot creations. -/
def snapIter (s : MgrState) : Nat → MgrState
  | 0 => s
  | n + 1 => (snapIter s n).create_config_snapshot "reload"

/-- `AdSystemConfigManager::rollback_last_change`: requires two snapshots,
restores the second-to-last snapshot's map into the cache, touches nothing
else. -/
def MgrState.rollback_last_change (s : MgrState) : Except ConfigError MgrState :=
  if s.config_history.length < 2 then .error .NoRollbackAvailable
  else
    let snapshot :=
      s.config_history.getD (s.config_history.length - 2) ⟨[], 0, ""⟩
    .ok { s with config_cache := snapshot.config_data }

/-- `AdSystemConfigManager::rollback_to_version`: restores the first snapshot
with the given version, or `VersionNotFound`. -/
def MgrState.rollback_to_version (s : MgrState) (version : Nat) :
    Except ConfigError MgrState :=
  match s.config_history.find? (fun snap => snap.version == version) with
  | some snapshot => .ok { s with config_cache := snapshot.config_data }
  | none => .error (.VersionNotFound version)

/-- `AdSystemConfigManager::validate_configuration`: the source constructs
`ValidationResult::success()` and returns it unchanged — it never consults the
registered validators or option descriptors (its body carries the note
"这里应该实现具体的验证逻辑"). -/
def MgrState.validate_configuration (_s : MgrState) : ValidationResult :=
  ValidationResult.success

/-- `AdSystemConfigManager::reload_all_providers` (the immutable variant used
by the event handler): the source's body only clears the value cache — the
provider reload itself is skipped (its comment: "暂时记录错误但不实际重载"). -/
def MgrState.reload_all_providers (s : MgrState) : MgrState :=
  { s with config_cache := [] }

/-- `AdSystemConfigManager::send_event_to_handler` with a handler set:
forwards the event to the handler. -/
def MgrState.send_event_to_handler (s : MgrState) (event : ConfigChangeEvent) :
    MgrState :=
  { s with events_sent := s.events_sent ++ [event] }

/-- `AdSystemConfigManager::handle_config_change_event`: forward the event,
snapshot "Before applying change: path", dispatch per event kind (reloading —
i.e. clearing the cache — for all kinds except validation/connection-failure
events), then validate; on invalid, emit a validation-failed event, roll back
and surface `ValidationFailed`. -/
def MgrState.handle_config_change_event (s : MgrState)
    (event : ConfigChangeEvent) : Except ConfigError MgrState :=
  let s := s.send_event_to_handler event
  let s := s.create_config_snapshot ("Before applying change: " ++ event.path)
  let s :=
    match event.event_type with
    | .Created => s.reload_all_providers
    | .Updated => s.reload_all_providers
    | .Deleted => s.reload_all_providers
    | .Reloaded => s.reload_all_providers
    | .ValidationFailed => s
    | .SourceConnectionFailed => s
    | .SourceConnectionRestored => s.reload_all_providers
  let validation_result := s.validate_configuration
  if validation_result.is_valid then .ok s
  else
    let failed_event := ConfigChangeEvent.created
      ("validation_failed:" ++ event.path)
      (.str "Validation failed after config change") "ConfigManager"
    let s := s.send_event_to_handler failed_event
    match s.rollback_last_change with
    | .ok _ => .error (.ValidationFailed validation_result.errors)
    | .error e => .error e

/-- `RangeRule` (`config-impl/src/advanced_validator.rs`). -/
structure RangeRule where
  rname : String
  min : Option Int
  max : Option Int
deriving DecidableEq, Repr

/-- `RangeRule::min_value`. -/
def RangeRule.min_value (min : Int) : RangeRule := ⟨"RangeRule", some min, none⟩

/-- `RangeRule::validate` (`ValidationRule for RangeRule`): numeric values are
range-checked producing structured errors; non-numeric values only warn. -/
def RangeRule.validate (r : RangeRule) (value : Value) : ValidationResult :=
  match value.as_num with
  | some num =>
    let result := ValidationResult.success
    let result :=
      match r.min with
      | some min =>
        if num < min then
          { result with is_valid := false
                        errors := result.errors ++ ["值必须大于等于"] }
        else result
      | none => result
    let result :=
      match r.max with
      | some max =>
        if num > max then
          { result with is_valid := false
                        errors := result.errors ++ ["值必须小于等于"] }
        else result
      | none => result
    result
  | none => ValidationResult.success

/-! ## DI container (`di-impl/src/lib.rs`) -/

/-- `Lifetime` (`common/src/component.rs`). -/
inductive Lifetime
  | Singleton
  | Scoped
  | Transient
deriving DecidableEq, Repr

/-- An instance behind `Arc<dyn Any + Send + Sync>`; the tag stands for the
underlying allocation, so distinct tags are distinct instances. -/
structure Instance where
  tag : Nat
deriving DecidableEq, Repr

/-- `HashMap::insert` keyed by `TypeId` (embedded as `Nat`): replaces the
existing entry or appends. -/
def hmInsert {α : Type} (m : List (Nat × α)) (k : Nat) (v : α) :
    List (Nat × α) :=
  match m with
  | [] => [(k, v)]
  | (k', v') :: rest =>
      if k' = k then (k', v) :: rest else (k', v') :: hmInsert rest k v

/-- `HashMap::get`. -/
def hmLookup {α : Type} (m : List (Nat × α)) (k : Nat) : Option α :=
  match m with
  | [] => none
  | (k', v) :: rest => if k' = k then some v else hmLookup rest k

/-- Number of entries stored under key `k`. -/
def hmCount {α : Type} (m : List (Nat × α)) (k : Nat) : Nat :=
  (m.filter (fun p => p.1 = k)).length

/-- `ComponentRegistration` (`di-impl/src/lib.rs`): metadata name, optional
factory (embedded as the instance the stored factory produces), lifetime, and
the optional pre-built singleton. -/
structure ComponentRegistration where
  cname : String
  factory : Option Instance
  lifetime : Lifetime
  singleton : Option Instance
deriving DecidableEq, Repr

/-- `DependencyError` (`common/src/errors.rs`); the variants `resolve`
produces. -/
inductive DependencyError
  | ComponentNotRegistered (type_name : String)
  | ComponentCreationFailed (type_name : String)
deriving DecidableEq, Repr

/-- `DiContainerImpl`: the registration table and the singleton cache. -/
structure DiContainer where
  registrations : List (Nat × ComponentRegistration)
  singletons : List (Nat × Instance)
deriving DecidableEq, Repr

/-- `DiContainerImpl::new`. -/
def DiContainer.new : DiContainer := ⟨[], []⟩

/-- `DiContainerImpl::register_component`: registration without factory or
instance. -/
def DiContainer.register_component (c : DiContainer) (type_id : Nat)
    (nm : String) (lifetime : Lifetime) : DiContainer :=
  { c with registrations :=
      hmInsert c.registrations type_id ⟨nm, none, lifetime, none⟩ }

/-- `DiContainerImpl::register_instance`: Singleton registration holding the
pre-built instance, which is also inserted into the singleton cache. -/
def DiContainer.register_instance (c : DiContainer) (type_id : Nat)
    (nm : String) (inst : Instance) : DiContainer :=
  { registrations :=
      hmInsert c.registrations type_id ⟨nm, none, .Singleton, some inst⟩
    singletons := hmInsert c.singletons type_id inst }

/-- `DiContainerImpl::register_factory`: registration holding the wrapped
factory; the singleton cache is not touched. -/
def DiContainer.register_factory (c : DiContainer) (type_id : Nat)
    (nm : String) (produces : Instance) (lifetime : Lifetime) : DiContainer :=
  { c with registrations :=
      hmInsert c.registrations type_id ⟨nm, some produces, lifetime, none⟩ }

/-- `DiContainerImpl::resolve`: the singleton cache is consulted first; on a
miss the registration's factory runs (caching the product for Singleton
lifetime), else its stored instance is returned; the downcast to the requested
type always succeeds here because lookups are keyed by the type's own id. -/
def DiContainer.resolve (c : DiContainer) (type_id : Nat) (type_name : String) :
    Except DependencyError (Instance × DiContainer) :=
  match hmLookup c.singletons type_id with
  | some cached => .ok (cached, c)
  | none =>
    match hmLookup c.registrations type_id with
    | some registration =>
      match registration.factory with
      | some produced =>
        let c :=
          if registration.lifetime = .Singleton then
            { c with singletons := hmInsert c.singletons type_id produced }
          else c
        .ok (produced, c)
      | none =>
        match registration.singleton with
        | some stored => .ok (stored, c)
        | none => .error (.ComponentCreationFailed type_name)
    | none => .error (.ComponentNotRegistered type_name)

/-- `DiContainerImpl::is_registered` /
`is_registered_by_type_id`: existence in the registration table. -/
def DiContainer.is_registered (c : DiContainer) (type_id : Nat) : Bool :=
  (hmLookup c.registrations type_id).isSome

/-! ## Concrete inputs used by the claims -/

/-- Source P1 of the spec's priority-merge example: priority 100,
`db.port = 5432`. -/
def exP1 : ProviderModel :=
  ⟨"P1", 100, [("db", ⟨[("port", .num 5432)]⟩)]⟩

/-- Source P2 of the spec's priority-merge example: priority 50,
`db.port = 5433` and `db.host = localhost`. -/
def exP2 : ProviderModel :=
  ⟨"P2", 50, [("db", ⟨[("port", .num 5433), ("host", .str "localhost")]⟩)]⟩

/-- The manager after registering P2 then P1 (order immaterial: the provider
vector is re-sorted on every registration). -/
def exMgr : ManagerProviders :=
  (ManagerProviders.empty.register_provider exP2).register_provider exP1

/-- Pre-change state for the hot-reload gate scenario: the live cache holds
`app.timeout_ms = 200`, no history yet, default cap. -/
def c1State : MgrState :=
  ⟨[("app.timeout_ms", .num 200)], [], 10, []⟩

/-- A debounced file-change event whose new content carries
`timeout_ms = 50`. -/
def c1Event : ConfigChangeEvent :=
  ⟨.Updated, "config/app.toml", none, some (.num 50), "file"⟩

/-- Snapshot S1 of the rollback round-trip scenario. -/
def snapS1 : ConfigSnapshot := ⟨[("db.port", .num 5432)], 1, "S1"⟩

/-- Snapshot S2 of the rollback round-trip scenario. -/
def snapS2 : ConfigSnapshot := ⟨[("db.port", .num 5433)], 2, "S2"⟩

/-- Manager state after two reloads produced S1 then S2. -/
def c5State : MgrState :=
  ⟨[("db.port", .num 5433)], [snapS1, snapS2], 10, []⟩

/-- `c5State` after one `rollback_last_change`: the cache holds S1's values,
the history is untouched. -/
def c5Rolled : MgrState :=
  ⟨[("db.port", .num 5432)], [snapS1, snapS2], 10, []⟩

/-- A state with two snapshots used to exhibit the rollback frame property. -/
def c10State : MgrState :=
  ⟨[("a", .num 2)], [⟨[("a", .num 1)], 1, "T1"⟩, ⟨[("a", .num 2)], 2, "T2"⟩], 10, []⟩

/-- `c10State` after a rollback: only the cache changed. -/
def c10Rolled : MgrState :=
  ⟨[("a", .num 1)], [⟨[("a", .num 1)], 1, "T1"⟩, ⟨[("a", .num 2)], 2, "T2"⟩], 10, []⟩

/-!
# Theorems

Helper lemmas about the association-list embedding of `HashMap`, then one
theorem per claim (with witnesses where a claim theorem carries hypotheses).
-/

theorem hmLookup_insert {α : Type} (m : List (Nat × α)) (k : Nat) (v : α) :
    hmLookup (hmInsert m k v) k = some v := by
  induction m with
  | nil => simp [hmInsert, hmLookup]
  | cons a rest ih =>
    obtain ⟨ak, av⟩ := a
    by_cases h : ak = k
    · simp [hmInsert, hmLookup, h]
    · simp [hmInsert, hmLookup, h, ih]

theorem hmCount_insert {α : Type} (m : List (Nat × α)) (k : Nat) (v : α) :
    hmCount (hmInsert m k v) k =
      if hmCount m k = 0 then 1 else hmCount m k := by
  induction m with
  | nil => simp [hmInsert, hmCount]
  | cons a rest ih =>
    obtain ⟨ak, av⟩ := a
    by_cases h : ak = k
    · subst h
      simp [hmInsert, hmCount, List.filter_cons]
    · have hstep : hmInsert ((ak, av) :: rest) k v = (ak, av) :: hmInsert rest k v := by
        simp [hmInsert, h]
      have h1 : hmCount ((ak, av) :: hmInsert rest k v) k =
          hmCount (hmInsert rest k v) k := by
        simp [hmCount, List.filter_cons, h]
      have h2 : hmCount ((ak, av) :: rest) k = hmCount rest k := by
        simp [hmCount, List.filter_cons, h]
      rw [hstep, h1, h2]
      exact ih

/-- C2: For the acyclic chain A→B, B→C, `topological_sort` does not return a
startup order: under every iteration order of the in-degree map it fails with
`CircularDependency`, although `detect_circular_dependencies` confirms the
graph is acyclic and the spec's own Kahn formulation (dependents decremented)
yields the order C, B, A.  The source decrements along `adjacency_list[node]`
(the dequeued node's dependencies) instead of its dependents, so no node with
a required dependency ever reaches in-degree zero. -/
theorem c2_topological_sort_rejects_acyclic_chain :
    chainGraph.detect_circular_dependencies [tA, tB, tC] = .ok () ∧
    ((permsOf [tA, tB, tC]).all
      (fun ord => chainGraph.topological_sort ord ==
        .error (.CircularDependency "检测到循环依赖"))) = true ∧
    ((permsOf [tA, tB, tC]).all
      (fun ord => chainGraph.topological_sort_specmodel ord ==
        .ok [tC, tB, tA])) = true := by
  decide

/-- C1: The hot-reload validation gate is not enforced.  The registered range
rule `timeout_ms ≥ 100` does reject the new value 50, yet
`handle_config_change_event` on the update event returns `ok` (never
`ValidationFailed`), leaves the live cache cleared rather than restored to its
pre-change values, takes only the "before" snapshot, and forwards only the
original event (no validation-failed event), because
`validate_configuration` unconditionally returns `ValidationResult::success`. -/
theorem c1_validation_gate_not_enforced :
    ((RangeRule.min_value 100).validate (.num 50)).is_valid = false ∧
    c1State.handle_config_change_event c1Event =
      .ok ⟨[], [⟨[("app.timeout_ms", .num 200)], 1,
                "Before applying change: config/app.toml"⟩], 10, [c1Event]⟩ := by
  decide

/-- C4 counterexample: the diamond graph contains the two distinct cycles
A→B→D→A and A→C→D→A, but under visit order A, B, C, D the detector reports
only `[A, B, D]` — no rotation of `[A, C, D]` appears in the result, because
D is already visited (and off the recursion stack) when the DFS reaches it
through C. -/
theorem c4_counterexample :
    isGraphCycle diamondGraph [tA, tC, tD] = true ∧
    isGraphCycle diamondGraph [tA, tB, tD] = true ∧
    diamondGraph.detect_circular_dependencies [tA, tB, tC, tD] =
      .error [[tA, tB, tD]] ∧
    reportsRotationOf diamondGraph [tA, tB, tC, tD] [tA, tC, tD] = false := by
  decide

/-- C4 (amended): `detect_circular_dependencies` restarts DFS from every
unvisited node and, on the two-cycle diamond graph, returns under every visit
order a non-empty list all of whose entries are genuine cycles — but it does
not report every cycle (see the counterexample). -/
theorem c4_detector_reports_genuine_cycles (ord : List TypeInfo)
    (h : ord ∈ permsOf [tA, tB, tC, tD]) :
    allReportedGenuine diamondGraph ord = true := by
  have hall : ((permsOf [tA, tB, tC, tD]).all
      (fun o => allReportedGenuine diamondGraph o)) = true := by decide
  exact List.all_eq_true.mp hall ord h

/-- Witness for C4 (amended) at the visit order A, B, C, D. -/
theorem c4_detector_reports_genuine_cycles_witness :
    allReportedGenuine diamondGraph [tA, tB, tC, tD] = true :=
  c4_detector_reports_genuine_cycles [tA, tB, tC, tD] (by decide)

/-- C6: For the graph A→B→C→A, under every iteration order of the node map
`detect_circular_dependencies` returns a non-empty cycle list containing a
rotation of [A, B, C], and under every iteration order of the in-degree map
`topological_sort` fails with `CircularDependency`. -/
theorem c6_cycle_graph_rejected (ord₁ ord₂ : List TypeInfo)
    (h₁ : ord₁ ∈ permsOf [tA, tB, tC])
    (h₂ : ord₂ ∈ permsOf [tA, tB, tC]) :
    reportsRotationOf cycleGraph ord₁ [tA, tB, tC] = true ∧
    cycleGraph.topological_sort ord₂ =
      .error (.CircularDependency "检测到循环依赖") := by
  have hall₁ : ((permsOf [tA, tB, tC]).all
      (fun o => reportsRotationOf cycleGraph o [tA, tB, tC])) = true := by decide
  have hall₂ : ((permsOf [tA, tB, tC]).all
      (fun o => decide (cycleGraph.topological_sort o =
        .error (.CircularDependency "检测到循环依赖")))) = true := by decide
  exact ⟨List.all_eq_true.mp hall₁ ord₁ h₁,
    of_decide_eq_true (List.all_eq_true.mp hall₂ ord₂ h₂)⟩

/-- Witness for C6 at the canonical orders. -/
theorem c6_cycle_graph_rejected_witness :
    reportsRotationOf cycleGraph [tA, tB, tC] [tA, tB, tC] = true ∧
    cycleGraph.topological_sort [tA, tB, tC] =
      .error (.CircularDependency "检测到循环依赖") :=
  c6_cycle_graph_rejected [tA, tB, tC] [tA, tB, tC] (by decide) (by decide)

/-- C3 counterexample: with the default cap of 10, after twelve snapshot
creations the history's version sequence is 3,…,11,11 — the twelfth snapshot
repeats version 11 instead of exceeding it, because
`get_next_snapshot_version` is the current history length + 1, which stops
growing once eviction holds the length at the cap. -/
theorem c3_counterexample :
    ((snapIter (freshMgr 10) 12).config_history.map (fun snap => snap.version)) =
      [3, 4, 5, 6, 7, 8, 9, 10, 11, 11] ∧
    ¬ ((snapIter (freshMgr 10) 12).config_history.map
        (fun snap => snap.version)).Pairwise (· ≠ ·) := by
  constructor
  · decide
  · decide

/-- C5 counterexample: with history S1, S2, the first `rollback_last_change`
restores S1's values, but the history still holds both snapshots (rollback
consumes nothing), so the claimed state "only one snapshot left" never arises
and a second call succeeds again instead of failing with
`NoRollbackAvailable`. -/
theorem c5_counterexample :
    c5State.rollback_last_change = .ok c5Rolled ∧
    c5Rolled.config_history.length = 2 ∧
    c5Rolled.rollback_last_change = .ok c5Rolled := by
  decide

/-- C9: If an identity is registered with a pre-built instance and later
re-registered with a factory, the registration table holds the factory
registration, the singleton cache still holds the original instance, and
`resolve` — consulting the cache first — returns the original instance
without running the factory and without changing the container. -/
theorem c9_resolve_returns_stale_instance_after_reregistration
    (c : DiContainer) (type_id : Nat) (n1 n2 tn : String)
    (inst produces : Instance) (lt : Lifetime) :
    ((c.register_instance type_id n1 inst).register_factory
        type_id n2 produces lt).singletons =
      (c.register_instance type_id n1 inst).singletons ∧
    hmLookup ((c.register_instance type_id n1 inst).register_factory
        type_id n2 produces lt).registrations type_id =
      some ⟨n2, some produces, lt, none⟩ ∧
    ((c.register_instance type_id n1 inst).register_factory
        type_id n2 produces lt).resolve type_id tn =
      .ok (inst, (c.register_instance type_id n1 inst).register_factory
        type_id n2 produces lt) := by
  refine ⟨rfl, ?_, ?_⟩
  · simp [DiContainer.register_instance, DiContainer.register_factory,
      hmLookup_insert]
  · simp [DiContainer.resolve, DiContainer.register_instance,
      DiContainer.register_factory, hmLookup_insert]

theorem optOr_none (a : Option Value) : optOr a none = a := by
  cases a <;> rfl

theorem optOr_assoc (a b c : Option Value) :
    optOr (optOr a b) c = optOr a (optOr b c) := by
  cases a <;> rfl

theorem kvLookup_append (acc : List (String × Value)) (k' : String) (v' : Value)
    (k : String) :
    kvLookup (acc ++ [(k', v')]) k =
      optOr (kvLookup acc k) (if k' = k then some v' else none) := by
  induction acc with
  | nil => simp [kvLookup, optOr]
  | cons a rest ih =>
    obtain ⟨ak, av⟩ := a
    by_cases h : ak = k
    · simp [kvLookup, h, optOr]
    · simp [kvLookup, h, ih]

theorem mergeSectionData_lookup (data : List (String × Value))
    (acc : List (String × Value)) (k : String) :
    kvLookup (mergeSectionData acc data) k =
      optOr (kvLookup acc k) (kvLookup data k) := by
  induction data generalizing acc with
  | nil => simp [mergeSectionData, kvLookup, optOr_none]
  | cons kv rest ih =>
    obtain ⟨k', v'⟩ := kv
    have hstep : mergeSectionData acc ((k', v') :: rest) =
        mergeSectionData (if (kvLookup acc k').isSome then acc
          else acc ++ [(k', v')]) rest := rfl
    rw [hstep, ih]
    by_cases hk : k' = k
    · subst hk
      cases hacc : kvLookup acc k' with
      | some v => simp [hacc, kvLookup, optOr]
      | none => simp [hacc, kvLookup, kvLookup_append, optOr]
    · cases hs : (kvLookup acc k').isSome
      · simp [hs, kvLookup_append, hk, kvLookup, optOr_none]
      · simp [hs, kvLookup, hk]

theorem collectSections_lookup (ps : List ProviderModel)
    (acc : List (String × Value)) (section_name k : String) :
    kvLookup (collectSections ps acc section_name) k =
      optOr (kvLookup acc k) (firstDef ps section_name k) := by
  induction ps generalizing acc with
  | nil => simp [collectSections, firstDef, optOr_none]
  | cons p rest ih =>
    cases hsec : secLookup p.sections section_name with
    | some sec =>
      have hgs : p.get_section section_name = .ok sec := by
        simp [ProviderModel.get_section, hsec]
      have hsv : p.sectionValue section_name k = kvLookup sec.data k := by
        simp [ProviderModel.sectionValue, hsec]
      have hfd : firstDef (p :: rest) section_name k =
          optOr (kvLookup sec.data k) (firstDef rest section_name k) := by
        cases hv : p.sectionValue section_name k with
        | some w => simp [firstDef, hv, optOr, hv.symm.trans hsv]
        | none => simp [firstDef, hv, optOr, hv.symm.trans hsv]
      rw [show collectSections (p :: rest) acc section_name =
          collectSections rest (mergeSectionData acc sec.data) section_name from by
        simp [collectSections, hgs]]
      rw [ih, mergeSectionData_lookup, optOr_assoc, hfd]
    | none =>
      have hgs : p.get_section section_name =
          .error (.KeyNotFound section_name) := by
        simp [ProviderModel.get_section, hsec]
      have hsv : p.sectionValue section_name k = none := by
        simp [ProviderModel.sectionValue, hsec]
      have hfd : firstDef (p :: rest) section_name k =
          firstDef rest section_name k := by
        simp [firstDef, hsv]
      rw [show collectSections (p :: rest) acc section_name =
          collectSections rest acc section_name from by
        simp [collectSections, hgs]]
      rw [ih, hfd]

theorem firstDef_isSome (section_name k : String) (p : ProviderModel)
    (v : Value) :
    ∀ (ps : List ProviderModel), p ∈ ps →
      p.sectionValue section_name k = some v →
      (firstDef ps section_name k).isSome := by
  intro ps
  induction ps with
  | nil => intro hp; cases hp
  | cons q rest ih =>
    intro hp hv
    cases hq : q.sectionValue section_name k with
    | some w => simp [firstDef, hq]
    | none =>
      rcases List.mem_cons.mp hp with rfl | hmem
      · simp [hq] at hv
      · simp only [firstDef, hq]
        exact ih hmem hv

theorem firstDef_eq_of_max (section_name k : String) (p : ProviderModel)
    (v : Value) :
    ∀ (ps : List ProviderModel),
      ps.Pairwise (fun a b => b.priority ≤ a.priority) →
      p ∈ ps → p.sectionValue section_name k = some v →
      (∀ q ∈ ps, (q.sectionValue section_name k).isSome →
        q = p ∨ q.priority < p.priority) →
      firstDef ps section_name k = some v := by
  intro ps
  induction ps with
  | nil => intro _ hp; cases hp
  | cons q rest ih =>
    intro hsorted hp hv hmax
    rw [List.pairwise_cons] at hsorted
    obtain ⟨hq_ge, hrest⟩ := hsorted
    cases hq : q.sectionValue section_name k with
    | some w =>
      rcases hmax q (List.mem_cons_self q rest) (by simp [hq]) with heq | hlt
      · subst heq
        rw [hv] at hq
        injection hq with hw
        subst hw
        simp [firstDef, hv]
      · rcases List.mem_cons.mp hp with rfl | hmem
        · omega
        · have hpq := hq_ge p hmem
          omega
    | none =>
      rcases List.mem_cons.mp hp with rfl | hmem
      · simp [hq] at hv
      · simp only [firstDef, hq]
        exact ih hrest hmem hv
          (fun r hr hs => hmax r (List.mem_cons_of_mem q hr) hs)

theorem kvLookup_isEmpty_false {l : List (String × Value)} {k : String}
    {v : Value} (h : kvLookup l k = some v) : l.isEmpty = false := by
  cases l with
  | nil => simp [kvLookup] at h
  | cons a rest => rfl

/-- C7: `get_section` is an additive priority merge: every key any provider
defines inside the section appears in the result, and a key whose definer has
strictly the highest priority among the providers defining it gets that
provider's value (the provider list being sorted by descending priority, as
`register_provider` maintains it). -/
theorem c7_get_section_additive_priority_merge :
    (∀ (m : ManagerProviders) (section_name k : String) (p : ProviderModel)
        (v : Value),
      p ∈ m.providers → p.sectionValue section_name k = some v →
      ∃ sec, m.get_section section_name = .ok sec ∧
        (kvLookup sec.data k).isSome) ∧
    (∀ (m : ManagerProviders) (section_name k : String) (p : ProviderModel)
        (v : Value),
      m.providers.Pairwise (fun a b => b.priority ≤ a.priority) →
      p ∈ m.providers → p.sectionValue section_name k = some v →
      (∀ q ∈ m.providers, (q.sectionValue section_name k).isSome →
        q = p ∨ q.priority < p.priority) →
      ∃ sec, m.get_section section_name = .ok sec ∧
        kvLookup sec.data k = some v) := by
  constructor
  · intro m section_name k p v hp hv
    have hfd := firstDef_isSome section_name k p v m.providers hp hv
    obtain ⟨w, hw⟩ := Option.isSome_iff_exists.mp hfd
    have hlook : kvLookup (collectSections m.providers [] section_name) k =
        some w := by
      rw [collectSections_lookup]
      simp [kvLookup, optOr, hw]
    have hne := kvLookup_isEmpty_false hlook
    refine ⟨⟨collectSections m.providers [] section_name⟩, ?_, ?_⟩
    · simp [ManagerProviders.get_section, hne]
    · simp [hlook]
  · intro m section_name k p v hsorted hp hv hmax
    have hfd := firstDef_eq_of_max section_name k p v m.providers hsorted hp hv hmax
    have hlook : kvLookup (collectSections m.providers [] section_name) k =
        some v := by
      rw [collectSections_lookup]
      simp [kvLookup, optOr, hfd]
    have hne := kvLookup_isEmpty_false hlook
    refine ⟨⟨collectSections m.providers [] section_name⟩, ?_, hlook⟩
    simp [ManagerProviders.get_section, hne]

/-- Witness for C7 at the spec's P1/P2 example: `getSection "db"` yields
`port = 5432` (P1, priority 100, wins over P2's 5433) and
`host = localhost` (only P2 defines it). -/
theorem c7_get_section_additive_priority_merge_witness :
    (∃ sec, exMgr.get_section "db" = .ok sec ∧
      kvLookup sec.data "port" = some (.num 5432)) ∧
    (∃ sec, exMgr.get_section "db" = .ok sec ∧
      kvLookup sec.data "host" = some (.str "localhost")) :=
  ⟨c7_get_section_additive_priority_merge.2 exMgr "db" "port" exP1 (.num 5432)
      (by decide) (by decide) (by decide) (by decide),
   c7_get_section_additive_priority_merge.2 exMgr "db" "host" exP2
      (.str "localhost") (by decide) (by decide) (by decide) (by decide)⟩

theorem snapIter_max (s : MgrState) (n : Nat) :
    (snapIter s n).max_history_size = s.max_history_size := by
  induction n with
  | zero => rfl
  | succ k ih =>
    show ((snapIter s k).create_config_snapshot "reload").max_history_size = _
    unfold MgrState.create_config_snapshot
    simpa using ih

theorem snapIter_versions (m n : Nat) (h : n ≤ m) :
    ((snapIter (freshMgr m) n).config_history.map (fun snap => snap.version)) =
      (List.range n).map (· + 1) := by
  induction n with
  | zero => rfl
  | succ k ih =>
    have hk := ih (Nat.le_of_succ_le h)
    have hlen : (snapIter (freshMgr m) k).config_history.length = k := by
      simpa using congrArg List.length hk
    have hmax := snapIter_max (freshMgr m) k
    have hgt : ¬ (k + 1 > m) := by omega
    have hstep : (snapIter (freshMgr m) (k + 1)).config_history =
        (snapIter (freshMgr m) k).config_history ++
          [⟨(snapIter (freshMgr m) k).config_cache, k + 1, "reload"⟩] := by
      show ((snapIter (freshMgr m) k).create_config_snapshot "reload").config_history = _
      have hmaxm : (snapIter (freshMgr m) k).max_history_size = m := by
        rw [hmax]
        rfl
      unfold MgrState.create_config_snapshot
      simp [MgrState.get_next_snapshot_version, MgrState.get_all_config_data,
        hlen, hmaxm, hgt]
    rw [hstep]
    simp [hk, List.range_succ]

theorem create_snapshot_at_cap (s : MgrState) (d : String)
    (h1 : 1 ≤ s.max_history_size)
    (h2 : s.config_history.length = s.max_history_size) :
    ((s.create_config_snapshot d).config_history.map (fun snap => snap.version)) =
      (s.config_history.map (fun snap => snap.version)).drop 1 ++
        [s.max_history_size + 1] := by
  have hgt : s.config_history.length + 1 > s.max_history_size := by omega
  unfold MgrState.create_config_snapshot
  simp only [MgrState.get_next_snapshot_version, MgrState.get_all_config_data,
    List.length_append, List.length_cons, List.length_nil, hgt, if_true]
  cases hh : s.config_history with
  | nil =>
    rw [hh] at h2
    simp at h2
    omega
  | cons a t =>
    rw [hh] at h2
    have hv : (a :: t).length + 1 = s.max_history_size + 1 := by rw [h2]
    rw [hv]
    simp

/-- C3 (amended): snapshot versions are the history length at creation time
plus one — so they increase strictly (versions 1, 2, …, n) only while the
bounded history has not yet evicted anything; once the history sits at its
cap, every further snapshot is created with the same version cap + 1,
so version numbers repeat (see the counterexample). -/
theorem c3_snapshot_version_growth (m n : Nat) (hnm : n ≤ m) (s : MgrState)
    (d : String) (h1 : 1 ≤ s.max_history_size)
    (h2 : s.config_history.length = s.max_history_size) :
    ((snapIter (freshMgr m) n).config_history.map (fun snap => snap.version)) =
      (List.range n).map (· + 1) ∧
    ((s.create_config_snapshot d).config_history.map (fun snap => snap.version)) =
      (s.config_history.map (fun snap => snap.version)).drop 1 ++
        [s.max_history_size + 1] :=
  ⟨snapIter_versions m n hnm, create_snapshot_at_cap s d h1 h2⟩

/-- A state whose history sits exactly at its cap (2 snapshots, cap 2). -/
def c3CapState : MgrState :=
  ⟨[], [⟨[], 1, "a"⟩, ⟨[], 2, "b"⟩], 2, []⟩

/-- Witness for C3 (amended): three creations under cap 10 give versions
1, 2, 3; one creation at cap 2 evicts the oldest and appends version 3. -/
theorem c3_snapshot_version_growth_witness :
    ((snapIter (freshMgr 10) 3).config_history.map (fun snap => snap.version)) =
      [1, 2, 3] ∧
    ((c3CapState.create_config_snapshot "x").config_history.map
        (fun snap => snap.version)) = [2, 3] := by
  have h := c3_snapshot_version_growth 10 3 (by decide) c3CapState "x"
    (by decide) (by decide)
  refine ⟨?_, ?_⟩
  · have h1 := h.1
    simpa using h1
  · have h2 := h.2
    simpa [c3CapState] using h2

/-- C5 (amended): `rollback_last_change` fails with `NoRollbackAvailable`
exactly when the history holds fewer than two snapshots; otherwise it
restores the second-to-last snapshot's map into the cache — and since the
history is not consumed, a further call succeeds again with the same result
(it does not fail with `NoRollbackAvailable` as the claim's scenario says). -/
theorem c5_rollback_requires_two_snapshots (s : MgrState) :
    (s.rollback_last_change = .error .NoRollbackAvailable ↔
      s.config_history.length < 2) ∧
    (2 ≤ s.config_history.length →
      s.rollback_last_change = .ok { s with config_cache :=
        (s.config_history.getD (s.config_history.length - 2)
          ⟨[], 0, ""⟩).config_data } ∧
      ∀ s', s.rollback_last_change = .ok s' →
        s'.rollback_last_change = .ok s') := by
  by_cases h : s.config_history.length < 2
  · refine ⟨⟨fun _ => h, fun _ => ?_⟩, fun h2 => absurd h2 (by omega)⟩
    unfold MgrState.rollback_last_change
    rw [if_pos h]
  · have hok : s.rollback_last_change = .ok { s with config_cache :=
        (s.config_history.getD (s.config_history.length - 2)
          ⟨[], 0, ""⟩).config_data } := by
      unfold MgrState.rollback_last_change
      rw [if_neg h]
    refine ⟨⟨fun he => ?_, fun hlt => absurd hlt h⟩, fun _ => ⟨hok, ?_⟩⟩
    · rw [hok] at he
      cases he
    · intro s' hs'
      rw [hok] at hs'
      injection hs' with he
      subst he
      simp [MgrState.rollback_last_change, h]

/-- Witness for C5 (amended) at the S1/S2 scenario state. -/
theorem c5_rollback_requires_two_snapshots_witness :
    c5State.rollback_last_change =
      .ok { c5State with config_cache := snapS1.config_data } ∧
    ((freshMgr 10).rollback_last_change = .error .NoRollbackAvailable) := by
  have h := c5_rollback_requires_two_snapshots c5State
  have h0 := c5_rollback_requires_two_snapshots (freshMgr 10)
  refine ⟨?_, ?_⟩
  · have := (h.2 (by decide)).1
    simpa [c5State, snapS1] using this
  · exact h0.1.mpr (by decide)

/-- C10: rollbacks modify only the live cache: the snapshot history, the cap
and the forwarded-event log are left exactly as they were, and a successful
rollback repeated from the resulting state succeeds with the same result. -/
theorem c10_rollback_modifies_only_cache (s : MgrState) (v : Nat) :
    (∀ s', s.rollback_last_change = .ok s' →
      s'.config_history = s.config_history ∧
      s'.max_history_size = s.max_history_size ∧
      s'.events_sent = s.events_sent ∧
      s'.rollback_last_change = .ok s') ∧
    (∀ s', s.rollback_to_version v = .ok s' →
      s'.config_history = s.config_history ∧
      s'.max_history_size = s.max_history_size ∧
      s'.events_sent = s.events_sent ∧
      s'.rollback_to_version v = .ok s') := by
  constructor
  · intro s' hs'
    unfold MgrState.rollback_last_change at hs'
    by_cases h : s.config_history.length < 2
    · rw [if_pos h] at hs'
      cases hs'
    · rw [if_neg h] at hs'
      injection hs' with he
      subst he
      refine ⟨rfl, rfl, rfl, ?_⟩
      simp [MgrState.rollback_last_change, h]
  · intro s' hs'
    unfold MgrState.rollback_to_version at hs'
    cases hf : s.config_history.find? (fun snap => snap.version == v) with
    | none =>
      rw [hf] at hs'
      cases hs'
    | some snap =>
      rw [hf] at hs'
      injection hs' with he
      subst he
      refine ⟨rfl, rfl, rfl, ?_⟩
      simp [MgrState.rollback_to_version, hf]

/-- Witness for C10: rolling `c10State` back leaves its two-snapshot history
intact and can be repeated. -/
theorem c10_rollback_modifies_only_cache_witness :
    c10Rolled.config_history = c10State.config_history ∧
    c10Rolled.rollback_last_change = .ok c10Rolled := by
  have h := (c10_rollback_modifies_only_cache c10State 1).1 c10Rolled (by decide)
  exact ⟨h.1, h.2.2.2⟩

/-- C8: re-registering an already registered identity succeeds and overwrites
(last-write-wins): starting from any registration table holding at most one
entry for the identity, after two `register_factory` calls the table holds
exactly one entry for it — the later registration — and `is_registered` is
true both after the first and after the second call. -/
theorem c8_reregistration_last_write_wins (c : DiContainer) (type_id : Nat)
    (n1 n2 : String) (f1 f2 : Instance) (lt1 lt2 : Lifetime)
    (hwf : hmCount c.registrations type_id ≤ 1) :
    (c.register_factory type_id n1 f1 lt1).is_registered type_id = true ∧
    ((c.register_factory type_id n1 f1 lt1).register_factory type_id n2 f2
        lt2).is_registered type_id = true ∧
    hmCount ((c.register_factory type_id n1 f1 lt1).register_factory type_id
        n2 f2 lt2).registrations type_id = 1 ∧
    hmLookup ((c.register_factory type_id n1 f1 lt1).register_factory type_id
        n2 f2 lt2).registrations type_id =
      some ⟨n2, some f2, lt2, none⟩ := by
  have hc1 : hmCount (hmInsert c.registrations type_id
      ⟨n1, some f1, lt1, none⟩) type_id = 1 := by
    rw [hmCount_insert]
    split <;> omega
  refine ⟨?_, ?_, ?_, ?_⟩
  · simp [DiContainer.register_factory, DiContainer.is_registered,
      hmLookup_insert]
  · simp [DiContainer.register_factory, DiContainer.is_registered,
      hmLookup_insert]
  · show hmCount (hmInsert (hmInsert c.registrations type_id
        ⟨n1, some f1, lt1, none⟩) type_id ⟨n2, some f2, lt2, none⟩) type_id = 1
    rw [hmCount_insert, hc1]
    simp
  · simp [DiContainer.register_factory, hmLookup_insert]

/-- Witness for C8 on a fresh container. -/
theorem c8_reregistration_last_write_wins_witness :
    ((DiContainer.new.register_factory 7 "first" ⟨1⟩ .Transient).register_factory
        7 "second" ⟨2⟩ .Singleton).is_registered 7 = true ∧
    hmLookup ((DiContainer.new.register_factory 7 "first" ⟨1⟩
        .Transient).register_factory 7 "second" ⟨2⟩
        .Singleton).registrations 7 =
      some ⟨"second", some ⟨2⟩, .Singleton, none⟩ := by
  have h := c8_reregistration_last_write_wins DiContainer.new 7 "first"
    "second" ⟨1⟩ ⟨2⟩ .Transient .Singleton (by decide)
  exact ⟨h.2.1, h.2.2.2⟩

end Spec2Proof
